import Mathlib

/-
  Verification of the OpenASIO SDK against its natural-language specification.

  The development shallowly embeds the Rust sources of the repository:
    crates/openasio-sys/src/lib.rs            (ABI constants and structs)
    crates/openasio-driver-umc202hd/src/lib.rs (pull-model ALSA driver, I32 hardware format)
    crates/openasio-driver-alsa17h/src/lib.rs  (pull-model ALSA driver, F32 hardware format)
    crates/openasio-driver-cpal/src/lib.rs     (callback-model driver)
    crates/openasio/src/lib.rs                 (host-side safe wrapper)

  Machine integers are modelled as Int/Nat, f32 samples as exact rationals
  together with an explicit round-to-nearest-even function on the binary32
  grid, buffers as lists, and the FFI side effects (device opens, prepares,
  thread spawns, frees) as explicit event traces.  Host process callbacks and
  device read/write outcomes are supplied by environment records of pure
  functions, indexed by the period number.
-/

namespace OASpec

/-! ### ABI constants, from crates/openasio-sys/src/lib.rs -/

def OA_OK : Int := 0
def OA_ERR_GENERIC : Int := -1
def OA_ERR_UNSUPPORTED : Int := -2
def OA_ERR_INVALID_ARG : Int := -3
def OA_ERR_DEVICE : Int := -4
def OA_ERR_BACKEND : Int := -5
def OA_ERR_STATE : Int := -6

/-- Sample formats of oa_sample_format (openasio-sys). -/
inductive OaSampleFormat where
  | f32
  | i16
deriving DecidableEq, Repr

/-- Buffer layouts of oa_buffer_layout (openasio-sys). -/
inductive OaBufferLayout where
  | interleaved
  | nonInterleaved
deriving DecidableEq, Repr

/-- Stream configuration, mirroring oa_stream_config (openasio-sys). -/
structure OaStreamConfig where
  sample_rate : Nat
  buffer_frames : Nat
  in_channels : Nat
  out_channels : Nat
  format : OaSampleFormat
  layout : OaBufferLayout
deriving DecidableEq, Repr

/-! ### Exact model of IEEE-754 binary32 values and roundings

  Rust f32 values are represented by the rational they denote.  The function
  f32round sends an arbitrary rational to the nearest binary32 value
  (round-to-nearest, ties-to-even), which is the rounding applied by Rust to
  every f32 literal and to the result of every f32 arithmetic operation.
  The model covers the finite range used by the drivers (magnitudes below
  2^127); overflow to infinity never occurs in the verified code paths.

  The arithmetic is written with dedicated operations built from Rat.divInt
  and the num and den projections, which the kernel evaluates on concrete
  inputs; bridge lemmas below identify them with the standard field
  operations of the rationals. -/

/-- Multiplication on the rationals in a kernel-computable presentation. -/
def qmul (a b : ℚ) : ℚ := Rat.divInt (a.num * b.num) ((a.den : Int) * (b.den : Int))

/-- Addition on the rationals in a kernel-computable presentation. -/
def qadd (a b : ℚ) : ℚ :=
  Rat.divInt (a.num * (b.den : Int) + b.num * (a.den : Int)) ((a.den : Int) * (b.den : Int))

/-- Negation on the rationals in a kernel-computable presentation. -/
def qneg (a : ℚ) : ℚ := Rat.divInt (-a.num) (a.den : Int)

/-- Subtraction on the rationals in a kernel-computable presentation. -/
def qsub (a b : ℚ) : ℚ := qadd a (qneg b)

/-- Comparison on the rationals in a kernel-computable presentation. -/
def qleb (a b : ℚ) : Bool := decide (a.num * (b.den : Int) ≤ b.num * (a.den : Int))

/-- Strict comparison on the rationals in a kernel-computable presentation. -/
def qltb (a b : ℚ) : Bool := decide (a.num * (b.den : Int) < b.num * (a.den : Int))

/-- Integer as a rational in a kernel-computable presentation. -/
def qofInt (n : Int) : ℚ := Rat.divInt n 1

/-- One half as a rational. -/
def qhalf : ℚ := Rat.divInt 1 2

/-- Floor of a nonnegative rational as an integer.  All uses below are on
  nonnegative arguments, where truncating integer division is the floor. -/
def qfloor (q : ℚ) : Int := q.num / (q.den : Int)

/-- Round a nonnegative rational to the nearest integer, ties to even. -/
def roundHalfEven (q : ℚ) : Int :=
  let f := qfloor q
  let r := qsub q (qofInt f)
  if qltb r qhalf then f
  else if qltb qhalf r then f + 1
  else if f % 2 = 0 then f else f + 1

/-- Round a rational to the nearest integer, ties away from zero.  This is
  the rounding performed by the Rust f32 round method. -/
def rustRound (q : ℚ) : Int :=
  if qleb 0 q then qfloor (qadd q qhalf) else - qfloor (qadd (qneg q) qhalf)

/-- Fuel-driven base-two logarithm on Nat, structural so that the kernel can
  evaluate it.  With fuel 64 it is exact for every input below 2^64. -/
def log2fuel : Nat → Nat → Nat
  | 0, _ => 0
  | fuel + 1, n => if 2 ≤ n then log2fuel fuel (n / 2) + 1 else 0

def ilog2 (n : Nat) : Nat := log2fuel 64 n

/-- Integer power of two as a rational, for possibly negative exponents. -/
def pow2 (e : Int) : ℚ :=
  if 0 ≤ e then Rat.divInt (Int.ofNat (2 ^ e.toNat)) 1
  else Rat.divInt 1 (Int.ofNat (2 ^ (-e).toNat))

/-- Floor of the base-two logarithm of a positive rational: the unique e with
  2^e ≤ q < 2^(e+1). -/
def qlog2floor (q : ℚ) : Int :=
  let a : Int := ilog2 q.num.toNat
  let b : Int := ilog2 q.den
  let e0 := a - b
  if qltb q (pow2 e0) then e0 - 1 else e0

/-- Round a rational to the nearest IEEE-754 binary32 value (ties to even).
  Normal numbers carry 24 bits of significand; magnitudes below 2^(-126)
  fall on the subnormal grid with step 2^(-149). -/
def f32round (q : ℚ) : ℚ :=
  if q = 0 then 0
  else
    let a := if qleb 0 q then q else qneg q
    let e := max (qlog2floor a) (-126)
    let g := e - 23
    let m := qmul (qofInt (roundHalfEven (qmul a (pow2 (-g))))) (pow2 g)
    if qleb 0 q then m else qneg m

/-- Saturating cast of a mathematical integer to the i32 range, the semantics
  of the Rust float-to-i32 as-cast composed with an in-range integer value. -/
def i32sat (n : Int) : Int := max (-2147483648) (min 2147483647 n)

/-- Wrapping increment base of the AtomicU32 xrun counters: fetch_add on a
  32-bit atomic wraps at 2^32. -/
def u32wrap (n : Nat) : Nat := n % 4294967296

/-! ### Sample converters of the UMC202HD driver

  From crates/openasio-driver-umc202hd/src/lib.rs, functions i32_to_f32
  (lines 139-144) and f32_to_i32 (lines 146-159).  The Rust constant
  SCALE = 1.0 / 2147483648.0 is exactly 2^(-31) in binary32; the constant
  MAX = 2147483647.0 rounds to 2^31 in binary32.  Both constants are modelled
  by rounding the literal, exactly as the Rust compiler does. -/

def UMC_SCALE : ℚ := f32round (Rat.divInt 1 2147483648)

def UMC_MAXF : ℚ := f32round 2147483647

/-- Conversion of one hardware i32 sample to an f32 sample: the source
  computes (s as f32) * SCALE, an f32 conversion followed by an f32
  multiplication, each rounding to binary32. -/
def i32_to_f32_elem (s : Int) : ℚ := f32round (qmul (f32round (qofInt s)) UMC_SCALE)

/-- Conversion of one f32 sample to a hardware i32 sample: inputs at or above
  1.0 saturate to i32 MAX, inputs at or below -1.0 saturate to i32 MIN, and
  otherwise the source computes (v * MAX).round() as i32.  The product is an
  f32 multiplication; the round result is integer-valued and exactly
  representable (arguments below 2^24 round to integers below 2^24 + 1, and
  f32 values of magnitude at least 2^23 are already integers), so the final
  as-cast is the saturating cast of that integer. -/
def f32_to_i32_elem (s : ℚ) : Int :=
  if qleb 1 s then 2147483647
  else if qleb s (qneg 1) then -2147483648
  else i32sat (rustRound (f32round (qmul s UMC_MAXF)))

/-- Overwrite the leading elements of dst with src, keeping the tail of dst:
  the effect of the zip-based copy loops and of slice assignments in the
  drivers. -/
def listOverwrite (dst src : List α) : List α :=
  src.take dst.length ++ dst.drop src.length

/-- Slice conversion i32_to_f32: iterates over zip(src, dst), so exactly
  min(src.len, dst.len) destination samples are overwritten. -/
def i32_to_f32 (src : List Int) (dst : List ℚ) : List ℚ :=
  listOverwrite dst (src.map i32_to_f32_elem)

/-- Slice conversion f32_to_i32, same zip iteration pattern. -/
def f32_to_i32 (src : List ℚ) (dst : List Int) : List Int :=
  listOverwrite dst (src.map f32_to_i32_elem)

/-! ### Device listing

  The three drivers share one buffer-writing routine in query_devices
  (umc202hd lines 275-286, alsa17h lines 61-73, cpal lines 34-44): copy
  at most len - 1 bytes of the name list, then write a terminating zero,
  touching nothing when the caller passed a zero-length buffer.  The byte
  list itself differs per driver and is abstracted as the bytes argument. -/

/-- Effect of query_devices on the caller buffer, returning the new buffer
  contents and the result code.  Nat subtraction models saturating_sub. -/
def queryDevicesWrite (bytes buf : List Nat) : List Nat × Int :=
  let len := buf.length
  let n := min bytes.length (len - 1)
  let buf1 := if 0 < n then bytes.take n ++ buf.drop n else buf
  let buf2 := if 0 < len then buf1.set n 0 else buf1
  (buf2, OA_OK)

/-! ### Control path of the two pull-model drivers

  Device handles are abstract identifiers; the outcomes of the external
  ALSA calls (PCM open, hardware parameter negotiation) are supplied by an
  environment of pure functions.  FFI side effects are recorded as events. -/

abbrev Pcm := Nat

inductive PcmDir where
  | capture
  | playback
deriving DecidableEq, Repr

/-- Control-path events: device opens and worker spawns. -/
inductive CtlEv where
  | openPlayback (name : String)
  | openCapture (name : String)
  | spawnWorker
deriving DecidableEq, Repr

/-- RT-path side effects: snd_pcm_prepare calls after an EPIPE. -/
inductive RtEv where
  | prepareCap
  | preparePb
deriving DecidableEq, Repr

/-- Outcomes of the external ALSA control calls. -/
structure CtlEnv where
  pcmNew : String → PcmDir → Option Pcm
  hwSetup : Pcm → PcmDir → OaStreamConfig → Bool
  umcDefaultName : String
  now : Nat

/-- Vec resize semantics: truncate to n or extend with x. -/
def listResize (l : List α) (n : Nat) (x : α) : List α :=
  l.take n ++ List.replicate (n - l.length) x

/-- Driver state of the UMC202HD driver (DriverState, umc202hd lines 27-45).
  The borrowed host callback table is immutable after create and is modelled
  as part of the RT environment; Instant is modelled as a Nat timestamp;
  plane pointers are modelled by their offsets into the backing buffers. -/
structure UmcState where
  devName : Option String
  ioCap : Option Pcm
  ioPb : Option Pcm
  cfg : OaStreamConfig
  time0 : Nat
  underruns : Nat
  overruns : Nat
  in_hw : List Int
  in_buf : List ℚ
  out_buf : List ℚ
  out_hw : List Int
  scratch_out : List ℚ
  in_planes : List Nat
  out_planes : List Nat
  running : Bool
  worker : Bool
  events : List RtEv
deriving DecidableEq, Repr

/-- Supported rates of the UMC202HD driver (line 20). -/
def SUPPORTED_SAMPLE_RATES : List Nat := [44100, 48000, 88200, 96000, 176400, 192000]

/-- Config validation of the UMC202HD driver (lines 323-340). -/
def validate_config (cfg : OaStreamConfig) : Except String Unit :=
  if cfg.format ≠ OaSampleFormat.f32 then
    Except.error "UMC202HD driver only supports float32"
  else if cfg.out_channels ≠ 2 then
    Except.error "UMC202HD playback requires 2 channels"
  else if cfg.in_channels ≠ 0 ∧ cfg.in_channels ≠ 2 then
    Except.error "UMC202HD capture supports 0 or 2 channels"
  else if cfg.sample_rate ∉ SUPPORTED_SAMPLE_RATES then
    Except.error "unsupported sample rate"
  else if cfg.buffer_frames = 0 then
    Except.error "buffer must be > 0"
  else
    Except.ok ()

/-- DriverState stop_worker: clear running, join and drop the worker. -/
def umcStopWorker (st : UmcState) : UmcState := { st with running := false, worker := false }

/-- Default stream config written by the UMC202HD create (lines 497-504). -/
def umcDefaultCfg : OaStreamConfig :=
  { sample_rate := 48000, buffer_frames := 128, in_channels := 2, out_channels := 2,
    format := OaSampleFormat.f32, layout := OaBufferLayout.interleaved }

/-- Driver state allocated by the UMC202HD openasio_driver_create. -/
def umcInitState : UmcState :=
  { devName := none, ioCap := none, ioPb := none, cfg := umcDefaultCfg, time0 := 0,
    underruns := 0, overruns := 0, in_hw := [], in_buf := [], out_buf := [], out_hw := [],
    scratch_out := [], in_planes := [], out_planes := [], running := false, worker := false,
    events := [] }

/-- Hardware setup over an optional capture handle: true when absent or
  when the setup call succeeded. -/
def hwSetupCapOk (env : CtlEnv) (cap : Option Pcm) (cfg : OaStreamConfig) : Bool :=
  match cap with
  | some c => env.hwSetup c PcmDir.capture cfg
  | none => true

/-- Continuation of the UMC202HD start after both devices opened: hardware
  setup (playback first, then capture), buffer sizing, plane seeding, config
  copy, counter reset, and worker spawn (lines 375-424). -/
def umcStartAfterOpen (env : CtlEnv) (st : UmcState) (cfg : OaStreamConfig)
    (pb : Pcm) (cap : Option Pcm) (evs : List CtlEv) : Int × UmcState × List CtlEv :=
  if env.hwSetup pb PcmDir.playback cfg = false then (OA_ERR_BACKEND, st, evs)
  else if hwSetupCapOk env cap cfg = false then (OA_ERR_BACKEND, st, evs)
  else
    let frames := cfg.buffer_frames
    let ich := cfg.in_channels
    let och := cfg.out_channels
    let st := { st with
      in_hw := listResize st.in_hw (frames * max ich 1) 0,
      in_buf := listResize st.in_buf (frames * max ich 1) 0,
      out_buf := listResize st.out_buf (frames * och) 0,
      out_hw := listResize st.out_hw (frames * och) 0,
      scratch_out := listResize st.scratch_out (frames * och) 0,
      in_planes := if 0 < ich then List.range ich else [],
      out_planes := if 0 < och then (List.range och).map (fun c => c * frames) else [],
      cfg := cfg,
      time0 := env.now,
      underruns := 0,
      overruns := 0,
      ioPb := some pb,
      ioCap := cap,
      running := true,
      worker := true }
    (OA_OK, st, evs ++ [CtlEv.spawnWorker])

/-- UMC202HD start (lines 342-425): null check, config validation before any
  state change, implicit stop, device opens, then umcStartAfterOpen. -/
def umcStart (env : CtlEnv) (st : UmcState) (cfg? : Option OaStreamConfig) :
    Int × UmcState × List CtlEv :=
  match cfg? with
  | none => (OA_ERR_INVALID_ARG, st, [])
  | some cfg =>
    match validate_config cfg with
    | Except.error _ => (OA_ERR_UNSUPPORTED, st, [])
    | Except.ok _ =>
      let st1 := { umcStopWorker st with ioCap := none, ioPb := none }
      let name := st1.devName.getD env.umcDefaultName
      match env.pcmNew name PcmDir.playback with
      | none => (OA_ERR_DEVICE, st1, [CtlEv.openPlayback name])
      | some pb =>
        if 0 < cfg.in_channels then
          match env.pcmNew name PcmDir.capture with
          | none => (OA_ERR_DEVICE, st1, [CtlEv.openPlayback name, CtlEv.openCapture name])
          | some cap =>
            umcStartAfterOpen env st1 cfg pb (some cap)
              [CtlEv.openPlayback name, CtlEv.openCapture name]
        else
          umcStartAfterOpen env st1 cfg pb none [CtlEv.openPlayback name]

/-- Driver state of the alsa17h driver (DriverState, alsa17h lines 21-34). -/
structure AlsaState where
  devName : Option String
  ioCap : Option Pcm
  ioPb : Option Pcm
  cfg : OaStreamConfig
  time0 : Nat
  underruns : Nat
  overruns : Nat
  in_buf : List ℚ
  out_buf : List ℚ
  running : Bool
  worker : Bool
  events : List RtEv
deriving DecidableEq, Repr

def alsaStopWorker (st : AlsaState) : AlsaState := { st with running := false, worker := false }

/-- Driver state allocated by the alsa17h openasio_driver_create. -/
def alsaInitState : AlsaState :=
  { devName := none, ioCap := none, ioPb := none, cfg := umcDefaultCfg, time0 := 0,
    underruns := 0, overruns := 0, in_buf := [], out_buf := [], running := false,
    worker := false, events := [] }

/-- Continuation of the alsa17h start after device opens: hardware setup
  (capture first, then playback), buffer sizing, worker spawn
  (lines 247-269). -/
def alsaStartAfterOpen (env : CtlEnv) (st : AlsaState) (cfg : OaStreamConfig)
    (pb : Pcm) (cap : Option Pcm) (evs : List CtlEv) : Int × AlsaState × List CtlEv :=
  if hwSetupCapOk env cap cfg = false then (OA_ERR_BACKEND, st, evs)
  else if env.hwSetup pb PcmDir.playback cfg = false then (OA_ERR_BACKEND, st, evs)
  else
    let st := { st with
      in_buf := listResize st.in_buf (cfg.buffer_frames * max cfg.in_channels 1) 0,
      out_buf := listResize st.out_buf (cfg.buffer_frames * cfg.out_channels) 0,
      ioPb := some pb,
      ioCap := cap,
      running := true,
      worker := true }
    (OA_OK, st, evs ++ [CtlEv.spawnWorker])

/-- The alsa17h start (lines 215-270): null check, implicit stop, then config
  copy, time0 and counter reset before the device opens, then the opens and
  alsaStartAfterOpen.  There is no config validation in this driver. -/
def alsaStart (env : CtlEnv) (st : AlsaState) (cfg? : Option OaStreamConfig) :
    Int × AlsaState × List CtlEv :=
  match cfg? with
  | none => (OA_ERR_INVALID_ARG, st, [])
  | some cfg =>
    let st1 := { alsaStopWorker st with
      ioPb := none
      ioCap := none
      cfg := cfg
      time0 := env.now
      underruns := 0
      overruns := 0 }
    let name := st1.devName.getD "default"
    match env.pcmNew name PcmDir.playback with
    | none => (OA_ERR_DEVICE, st1, [CtlEv.openPlayback name])
    | some pb =>
      if 0 < cfg.in_channels then
        match env.pcmNew name PcmDir.capture with
        | none => (OA_ERR_DEVICE, st1, [CtlEv.openPlayback name, CtlEv.openCapture name])
        | some cap =>
          alsaStartAfterOpen env st1 cfg pb (some cap)
            [CtlEv.openPlayback name, CtlEv.openCapture name]
      else
        alsaStartAfterOpen env st1 cfg pb none [CtlEv.openPlayback name]

/-! ### Control path of the cpal callback-model driver -/

/-- Driver state of the cpal driver (DriverState, cpal lines 10-25).  The
  process-wide static scratch of the non-interleaved output path is carried
  as a field, which is faithful while a single driver instance exists. -/
structure CpalState where
  outDevice : Option Nat
  inDevice : Option Nat
  outStream : Bool
  inStream : Bool
  cfg : OaStreamConfig
  time0 : Nat
  underruns : Nat
  overruns : Nat
  in_buf : List ℚ
  in_seq : Nat
  scratch : List ℚ
deriving DecidableEq, Repr

/-- Default state written by the cpal openasio_driver_create (lines 240-246). -/
def cpalInitState : CpalState :=
  { outDevice := none, inDevice := none, outStream := false, inStream := false,
    cfg := { sample_rate := 48000, buffer_frames := 256, in_channels := 0, out_channels := 2,
             format := OaSampleFormat.f32, layout := OaBufferLayout.interleaved },
    time0 := 0, underruns := 0, overruns := 0, in_buf := [], in_seq := 0, scratch := [] }

/-- The cpal start (lines 94-209): requires an opened output device, stores
  the config, resizes the input staging, resets the input sequence number,
  and installs the backend streams.  The xrun counters are not touched. -/
def cpalStart (st : CpalState) (cfg : OaStreamConfig) : Int × CpalState :=
  match st.outDevice with
  | none => (OA_ERR_DEVICE, st)
  | some _ =>
    let st := { st with
      cfg := cfg
      in_buf := listResize st.in_buf (cfg.buffer_frames * max cfg.in_channels 1) 0
      in_seq := 0 }
    let st := if st.inDevice.isSome && 0 < cfg.in_channels then { st with inStream := true } else st
    (OA_OK, { st with outStream := true })

/-! ### RT transport -/

inductive RtErrno where
  | epipe
  | other
deriving DecidableEq, Repr

/-- Record of one host process invocation: the input pointer contents (none
  models a null input pointer), the contents of the output staging area
  handed to the host, and the boolean continue flag the host returned. -/
structure ProcCall where
  inp : Option (List ℚ)
  outPrev : List ℚ
  keep : Bool
deriving DecidableEq, Repr

def pcDefault : ProcCall := { inp := none, outPrev := [], keep := true }

/-- Per-period outcomes of the external world on the RT thread: the result
  and data of the blocking capture read, the result of the blocking playback
  write, and the host process callback (indexed by period number; the host
  receives the input block and the current output staging contents and
  returns the continue flag and the staging contents after its writes). -/
structure RtEnv where
  readRes : Nat → Except RtErrno Nat
  capDataI : Nat → List Int
  capDataF : Nat → List ℚ
  writeRes : Nat → Option RtErrno
  hasProcess : Bool
  process : Nat → Option (List ℚ) → List ℚ → Bool × List ℚ

/-- Capture phase of the UMC202HD RT period (lines 176-200): blocking i32
  read, conversion of the read samples into in_buf, zero fill of the tail on
  a short read; on EPIPE re-prepare and count an overrun, and zero the whole
  input block on any error. -/
def umcCapture (env : RtEnv) (p : Nat) (st : UmcState) : UmcState :=
  match st.ioCap with
  | none => st
  | some _ =>
    let total := st.cfg.buffer_frames * st.cfg.in_channels
    match env.readRes p with
    | Except.ok read =>
      let samples := min (read * st.cfg.in_channels) total
      let inHw := listOverwrite st.in_hw ((env.capDataI p).take samples)
      let conv := (inHw.take samples).map i32_to_f32_elem
      let inBuf := listOverwrite st.in_buf (conv ++ List.replicate (total - samples) 0)
      { st with in_hw := inHw, in_buf := inBuf }
    | Except.error e =>
      let st1 :=
        if e = RtErrno.epipe then
          { st with overruns := u32wrap (st.overruns + 1), events := st.events ++ [RtEv.prepareCap] }
        else st
      { st1 with in_buf := listOverwrite st1.in_buf (List.replicate total 0) }

/-- Output staging clear of the UMC202HD RT period (lines 202-206). -/
def umcClear (st : UmcState) : UmcState :=
  let n := st.cfg.buffer_frames * st.cfg.out_channels
  if st.cfg.layout = OaBufferLayout.interleaved then
    { st with out_buf := listOverwrite st.out_buf (List.replicate n 0) }
  else
    { st with scratch_out := listOverwrite st.scratch_out (List.replicate n 0) }

/-- Input pointer contents handed to process (lines 216-222): null when
  in_channels is zero, otherwise the input staging block (in the
  non-interleaved layout the plane pointers expose the same samples). -/
def umcInPtr (st : UmcState) : Option (List ℚ) :=
  if st.cfg.in_channels = 0 then none
  else some (st.in_buf.take (st.cfg.buffer_frames * st.cfg.in_channels))

/-- Output staging contents handed to process (lines 223-227). -/
def umcStage (st : UmcState) : List ℚ :=
  let n := st.cfg.buffer_frames * st.cfg.out_channels
  if st.cfg.layout = OaBufferLayout.interleaved then st.out_buf.take n
  else st.scratch_out.take n

/-- Writeback of the staging contents produced by the host callback. -/
def umcSetStage (st : UmcState) (l : List ℚ) : UmcState :=
  let n := st.cfg.buffer_frames * st.cfg.out_channels
  if st.cfg.layout = OaBufferLayout.interleaved then
    { st with out_buf := listOverwrite st.out_buf (l.take n) }
  else
    { st with scratch_out := listOverwrite st.scratch_out (l.take n) }

/-- Gather of channel planes into interleaved frame-major order: position
  f * och + c receives plane sample c * frames + f (lines 242-250). -/
def gatherPlanes (scratch : List ℚ) (frames och : Nat) : List ℚ :=
  (List.range (frames * och)).map (fun i => scratch.getD ((i % och) * frames + i / och) 0)

/-- Destage step of the UMC202HD RT period: in the non-interleaved layout
  gather scratch planes into out_buf; the interleaved layout needs none. -/
def umcDestage (st : UmcState) : UmcState :=
  if st.cfg.layout = OaBufferLayout.interleaved then st
  else
    let n := st.cfg.buffer_frames * st.cfg.out_channels
    let g := gatherPlanes (st.scratch_out.take n) st.cfg.buffer_frames st.cfg.out_channels
    { st with out_buf := listOverwrite st.out_buf g }

/-- Output conversion of the UMC202HD RT period (lines 252-255). -/
def umcConvertOut (st : UmcState) : UmcState :=
  let n := st.cfg.buffer_frames * st.cfg.out_channels
  { st with out_hw := f32_to_i32 (st.out_buf.take n) (st.out_hw.take n) ++ st.out_hw.drop n }

/-- Playback phase of the UMC202HD RT period (lines 257-267): blocking i32
  write; on EPIPE re-prepare and count an underrun.  Returns the hardware
  block handed to the device write. -/
def umcPlayback (env : RtEnv) (p : Nat) (st : UmcState) : UmcState × Option (List Int) :=
  match st.ioPb with
  | none => (st, none)
  | some _ =>
    let n := st.cfg.buffer_frames * st.cfg.out_channels
    let block := st.out_hw.take n
    match env.writeRes p with
    | none => (st, some block)
    | some e =>
      if e = RtErrno.epipe then
        ({ st with underruns := u32wrap (st.underruns + 1), events := st.events ++ [RtEv.preparePb] },
         some block)
      else (st, some block)

/-- Tail of the UMC202HD RT period after the host callback kept running:
  destage, output conversion, playback delivery. -/
def umcStepRest (env : RtEnv) (p : Nat) (st : UmcState) : UmcState × Option (List Int) :=
  umcPlayback env p (umcConvertOut (umcDestage st))

/-- One full period of the UMC202HD RT worker loop body (lines 161-268).
  When the host process callback returns false the driver clears running and
  continues to the loop head, skipping the delivery tail of that period. -/
def umcStep (env : RtEnv) (p : Nat) (st : UmcState) :
    UmcState × Option ProcCall × Option (List Int) :=
  let st1 := umcClear (umcCapture env p st)
  if env.hasProcess then
    let inp := umcInPtr st1
    let stage := umcStage st1
    let r := env.process p inp stage
    let st2 := umcSetStage st1 r.2
    if r.1 then
      let rd := umcStepRest env p st2
      (rd.1, some { inp := inp, outPrev := stage, keep := true }, rd.2)
    else
      ({ st2 with running := false }, some { inp := inp, outPrev := stage, keep := false }, none)
  else
    let rd := umcStepRest env p st1
    (rd.1, none, rd.2)

/-- Bounded observation of the UMC202HD RT worker loop: runs periods from
  index p while running holds and fuel remains, collecting the process-call
  records and the delivered hardware blocks in order. -/
def umcRun (env : RtEnv) : Nat → Nat → UmcState → UmcState × List ProcCall × List (List Int)
  | 0, _, st => (st, [], [])
  | fuel + 1, p, st =>
    if st.running then
      let r := umcStep env p st
      let rest := umcRun env fuel (p + 1) r.1
      (rest.1, r.2.1.toList ++ rest.2.1, r.2.2.toList ++ rest.2.2)
    else (st, [], [])

/-- Capture phase of the alsa17h RT period (lines 133-143): blocking f32
  read straight into in_buf; on EPIPE the device is re-prepared and the
  underruns counter is incremented; no zero fill on error or short read. -/
def alsaCapture (env : RtEnv) (p : Nat) (st : AlsaState) : AlsaState :=
  match st.ioCap with
  | none => st
  | some _ =>
    let total := st.cfg.buffer_frames * st.cfg.in_channels
    match env.readRes p with
    | Except.ok read =>
      let samples := min (read * st.cfg.in_channels) total
      { st with in_buf := listOverwrite st.in_buf ((env.capDataF p).take samples) }
    | Except.error e =>
      if e = RtErrno.epipe then
        { st with underruns := u32wrap (st.underruns + 1), events := st.events ++ [RtEv.prepareCap] }
      else st

/-- Input pointer contents handed to process by alsa17h (lines 154-176). -/
def alsaInPtr (st : AlsaState) : Option (List ℚ) :=
  if 0 < st.cfg.in_channels then
    some (st.in_buf.take (st.cfg.buffer_frames * st.cfg.in_channels))
  else none

/-- Playback phase of the alsa17h RT period (lines 188-198): blocking f32
  write of out_buf; on EPIPE re-prepare and count an underrun. -/
def alsaPlayback (env : RtEnv) (p : Nat) (st : AlsaState) : AlsaState × Option (List ℚ) :=
  match st.ioPb with
  | none => (st, none)
  | some _ =>
    let n := st.cfg.buffer_frames * st.cfg.out_channels
    let block := st.out_buf.take n
    match env.writeRes p with
    | none => (st, some block)
    | some e =>
      if e = RtErrno.epipe then
        ({ st with underruns := u32wrap (st.underruns + 1), events := st.events ++ [RtEv.preparePb] },
         some block)
      else (st, some block)

/-- One full period of the alsa17h RT worker loop body (lines 118-200).
  There is no output staging clear, and the continue flag returned by the
  host process callback is discarded. -/
def alsaStep (env : RtEnv) (p : Nat) (st : AlsaState) :
    AlsaState × Option ProcCall × Option (List ℚ) :=
  let st1 := alsaCapture env p st
  if env.hasProcess then
    let n := st1.cfg.buffer_frames * st1.cfg.out_channels
    let inp := alsaInPtr st1
    let stage := st1.out_buf.take n
    let r := env.process p inp stage
    let st2 := { st1 with out_buf := listOverwrite st1.out_buf (r.2.take n) }
    let rd := alsaPlayback env p st2
    (rd.1, some { inp := inp, outPrev := stage, keep := r.1 }, rd.2)
  else
    let rd := alsaPlayback env p st1
    (rd.1, none, rd.2)

/-- Bounded observation of the alsa17h RT worker loop. -/
def alsaRun (env : RtEnv) : Nat → Nat → AlsaState → AlsaState × List ProcCall × List (List ℚ)
  | 0, _, st => (st, [], [])
  | fuel + 1, p, st =>
    if st.running then
      let r := alsaStep env p st
      let rest := alsaRun env fuel (p + 1) r.1
      (rest.1, r.2.1.toList ++ rest.2.1, r.2.2.toList ++ rest.2.2)
    else (st, [], [])

/-- The cpal input callback (lines 112-124): copy the latest block into the
  input staging, growing it if needed, and bump the sequence counter. -/
def cpalInCallback (st : CpalState) (data : List ℚ) : CpalState :=
  let ich := max st.cfg.in_channels 1
  let frames := data.length / ich
  let len := frames * ich
  let buf := if st.in_buf.length < len
             then st.in_buf ++ List.replicate (len - st.in_buf.length) 0
             else st.in_buf
  { st with in_buf := listOverwrite buf (data.take len), in_seq := st.in_seq + 1 }

/-- The cpal output callback (lines 139-203), driving the host process call.
  Interleaved: the backend buffer is handed to the host directly.
  Non-interleaved: the host writes channel planes of the static scratch,
  which is then gathered into the backend buffer.  In both layouts the
  continue flag returned by the host is bound to a discarded variable, and
  the xrun counters are never written. -/
def cpalOutCallback (env : RtEnv) (p : Nat) (st : CpalState) (data : List ℚ) :
    CpalState × List ℚ × Option ProcCall :=
  let och := max st.cfg.out_channels 1
  let frames := data.length / och
  if st.cfg.layout = OaBufferLayout.interleaved then
    if env.hasProcess then
      let inp := if 0 < st.cfg.in_channels then some st.in_buf else none
      let r := env.process p inp data
      (st, listOverwrite data r.2, some { inp := inp, outPrev := data, keep := r.1 })
    else (st, data, none)
  else
    let ch := st.cfg.out_channels
    let needed := frames * ch
    let scr := if st.scratch.length < needed
               then st.scratch ++ List.replicate (needed - st.scratch.length) 0
               else st.scratch
    let inp := if 0 < st.cfg.in_channels then some st.in_buf else none
    let pr : Option ProcCall × List ℚ :=
      if env.hasProcess then
        let r := env.process p inp (scr.take needed)
        (some { inp := inp, outPrev := scr.take needed, keep := r.1 },
         listOverwrite scr (r.2.take needed))
      else (none, scr)
    let data2 := (List.range (frames * ch)).map
        (fun i => pr.2.getD ((i % ch) * frames + i / ch) 0) ++ data.drop (frames * ch)
    ({ st with scratch := pr.2 }, data2, pr.1)

/-! ### Host-side wrapper, crates/openasio/src/lib.rs -/

/-- Host callback table registered at create (oa_host_callbacks). -/
structure OaHostCallbacks where
  processSet : Bool
  latencyChangedSet : Bool
  resetRequestSet : Bool
deriving DecidableEq, Repr

/-- Creation parameters (oa_create_params); the host field models the
  borrowed callback-table pointer, none standing for null. -/
structure OaCreateParams where
  struct_size : Nat
  host : Option OaHostCallbacks
deriving DecidableEq, Repr

/-- Entry point openasio_driver_create of the UMC202HD driver
  (lines 462-522).  The boolean argument models nullness of the out
  pointer; the returned Option carries what was stored through out, with
  none meaning out was not written. -/
def umcDriverCreate : Option OaCreateParams → Bool → Int × Option UmcState
  | none, _ => (OA_ERR_INVALID_ARG, none)
  | some _, true => (OA_ERR_INVALID_ARG, none)
  | some p, false =>
    if p.host.isNone then (OA_ERR_INVALID_ARG, none)
    else (OA_OK, some umcInitState)

/-- Entry point openasio_driver_create of the alsa17h driver
  (lines 300-353), identical null handling. -/
def alsaDriverCreate : Option OaCreateParams → Bool → Int × Option AlsaState
  | none, _ => (OA_ERR_INVALID_ARG, none)
  | some _, true => (OA_ERR_INVALID_ARG, none)
  | some p, false =>
    if p.host.isNone then (OA_ERR_INVALID_ARG, none)
    else (OA_OK, some alsaInitState)

/-- Entry point openasio_driver_create of the cpal driver (lines 226-249).
  This driver checks only params and out for null, not the host table. -/
def cpalDriverCreate : Option OaCreateParams → Bool → Int × Option CpalState
  | none, _ => (OA_ERR_INVALID_ARG, none)
  | some _, true => (OA_ERR_INVALID_ARG, none)
  | some _, false => (OA_OK, some cpalInitState)

/-- Destruction side effects. -/
inductive DestroyEv where
  | stopWorker
  | freeDriver
deriving DecidableEq, Repr

/-- Entry point openasio_driver_destroy of the UMC202HD driver
  (lines 524-529): a null driver pointer is a no-op, otherwise the box is
  reclaimed, whose DriverState drop stops the worker first. -/
def umcDriverDestroy : Option UmcState → List DestroyEv
  | none => []
  | some _ => [DestroyEv.stopWorker, DestroyEv.freeDriver]

/-- Entry point openasio_driver_destroy of the alsa17h driver
  (lines 355-360), same shape. -/
def alsaDriverDestroy : Option AlsaState → List DestroyEv
  | none => []
  | some _ => [DestroyEv.stopWorker, DestroyEv.freeDriver]

/-- Entry point openasio_driver_destroy of the cpal driver (line 250). -/
def cpalDriverDestroy : Option CpalState → List DestroyEv
  | none => []
  | some _ => [DestroyEv.freeDriver]

/-- Side effects of dropping the host wrapper Driver value, in order
  (openasio lib.rs line 118).  The Drop body calls only the vtable
  close_device; the fields then drop in declaration order: the library
  handle is released, the NonNull driver pointer has no destructor (the
  driver object is leaked, openasio_driver_destroy is never invoked), and
  the heap thunk is freed. -/
inductive HostDropEv where
  | vtStop
  | vtCloseDevice
  | callDestroy
  | releaseLibrary
  | freeThunk
deriving DecidableEq, Repr

def driverDropTrace : List HostDropEv :=
  [HostDropEv.vtCloseDevice, HostDropEv.releaseLibrary, HostDropEv.freeThunk]

/-- Bytes of a C string: everything before the first zero byte, the effect
  of CStr from_ptr on the enumeration buffer. -/
def cstrBytes (buf : List Nat) : List Nat := buf.takeWhile (fun b => b ≠ 0)

def splitNlAux : List Nat → List Nat → List (List Nat)
  | [], acc => [acc.reverse]
  | b :: rest, acc =>
    if b = 10 then acc.reverse :: splitNlAux rest []
    else splitNlAux rest (b :: acc)

/-- Rust str lines: split on newline bytes, with no trailing empty line and
  no lines at all for the empty string. -/
def rustLines (l : List Nat) : List (List Nat) :=
  if l = [] then []
  else
    let parts := splitNlAux l []
    match parts.getLast? with
    | some [] => parts.dropLast
    | _ => parts

/-- Driver enumerate_devices (openasio lines 80-89): a negative vtable code
  is lifted into an error naming the operation, otherwise the buffer is
  parsed as a newline-delimited C string. -/
def hostEnumerateDevices (rc : Int) (buf : List Nat) : Except String (List (List Nat)) :=
  if rc < 0 then Except.error ("query_devices rc=" ++ toString rc)
  else Except.ok (rustLines (cstrBytes buf))

/-- Driver open_by_name and open_default (openasio lines 90-100). -/
def hostOpenDevice (rc : Int) : Except String Unit :=
  if rc < 0 then Except.error ("open_device rc=" ++ toString rc) else Except.ok ()

/-- Safe config view used by the host wrapper (openasio lines 8-15). -/
structure StreamConfig where
  sample_rate : Nat
  buffer_frames : Nat
  in_channels : Nat
  out_channels : Nat
  interleaved : Bool
deriving DecidableEq, Repr

def toStreamConfig (c : OaStreamConfig) : StreamConfig :=
  { sample_rate := c.sample_rate, buffer_frames := c.buffer_frames,
    in_channels := c.in_channels, out_channels := c.out_channels,
    interleaved := c.layout = OaBufferLayout.interleaved }

/-- Driver default_config (openasio lines 101-114). -/
def hostDefaultConfig (rc : Int) (c : OaStreamConfig) : Except String StreamConfig :=
  if rc < 0 then Except.error ("get_default_config rc=" ++ toString rc)
  else Except.ok (toStreamConfig c)

/-- Driver start (openasio line 115): the vtable result code is not
  examined and the call always returns Ok. -/
def hostStart (_rc : Int) : Except String Unit := Except.ok ()

/-! ### Concrete fixtures used by witnesses and counterexamples -/

/-- Environment in which every external ALSA control call succeeds. -/
def ctlEnvOk : CtlEnv :=
  { pcmNew := fun _ _ => some 0, hwSetup := fun _ _ _ => true,
    umcDefaultName := "hw:UMC202HD", now := 7 }

/-- Config with a sample rate outside the UMC202HD support matrix. -/
def cfgRate12345 : OaStreamConfig :=
  { sample_rate := 12345, buffer_frames := 128, in_channels := 2, out_channels := 2,
    format := OaSampleFormat.f32, layout := OaBufferLayout.interleaved }

/-- Small interleaved output-only config: two frames, one channel. -/
def cfgMono2 : OaStreamConfig :=
  { sample_rate := 48000, buffer_frames := 2, in_channels := 0, out_channels := 1,
    format := OaSampleFormat.f32, layout := OaBufferLayout.interleaved }

/-- RT environment whose host keeps the stream running and writes nothing. -/
def rtEnvKeep : RtEnv :=
  { readRes := fun _ => Except.ok 0, capDataI := fun _ => [], capDataF := fun _ => [],
    writeRes := fun _ => none, hasProcess := true,
    process := fun _ _ stage => (true, stage) }

/-- RT environment whose host returns false on every period. -/
def rtEnvRefuse : RtEnv :=
  { rtEnvKeep with process := fun _ _ stage => (false, stage) }

/-- RT environment whose capture read fails with EPIPE and with no host. -/
def rtEnvEpipeRead : RtEnv :=
  { rtEnvKeep with readRes := fun _ => Except.error RtErrno.epipe, hasProcess := false }

/-- RT environment whose host writes ones on period zero, nothing after. -/
def rtEnvWriteOnce : RtEnv :=
  { rtEnvKeep with process := fun p _ stage => (true, if p = 0 then [1, 1, 1, 1] else stage) }

/-- Running UMC202HD state sized for cfgMono2, no devices attached. -/
def umcRunSt : UmcState :=
  { umcInitState with
    cfg := cfgMono2
    out_buf := [0, 0]
    out_hw := [0, 0]
    scratch_out := [0, 0]
    running := true }

/-- Running alsa17h state, one frame of one channel, no devices attached. -/
def alsaStRefuse : AlsaState :=
  { alsaInitState with
    cfg := { sample_rate := 48000, buffer_frames := 1, in_channels := 0, out_channels := 1,
             format := OaSampleFormat.f32, layout := OaBufferLayout.interleaved }
    out_buf := [0]
    running := true
    worker := true }

/-- Running alsa17h state with a playback device, two frames of two
  channels, output staging currently silent. -/
def alsaStStale : AlsaState :=
  { alsaInitState with
    cfg := { sample_rate := 48000, buffer_frames := 2, in_channels := 0, out_channels := 2,
             format := OaSampleFormat.f32, layout := OaBufferLayout.interleaved }
    ioPb := some 0
    out_buf := [0, 0, 0, 0]
    running := true
    worker := true }

/-- Capture-only config of one frame of two channels. -/
def cfgCapOnly : OaStreamConfig :=
  { sample_rate := 48000, buffer_frames := 1, in_channels := 2, out_channels := 0,
    format := OaSampleFormat.f32, layout := OaBufferLayout.interleaved }

/-- Running alsa17h state with a capture device attached. -/
def alsaStCap : AlsaState :=
  { alsaInitState with
    cfg := cfgCapOnly
    ioCap := some 0
    in_buf := [0, 0]
    running := true
    worker := true }

/-- Running UMC202HD state with a capture device attached. -/
def umcStCap : UmcState :=
  { umcInitState with
    cfg := cfgCapOnly
    ioCap := some 0
    in_hw := [0, 0]
    in_buf := [0, 0]
    running := true
    worker := true }

/-- Opened cpal state carrying nonzero xrun counters. -/
def cpalStCounters : CpalState :=
  { cpalInitState with
    outDevice := some 0
    underruns := 5
    overruns := 7
    in_seq := 3 }

end OASpec

/-! ## Theorems -/

namespace OASpec

set_option maxRecDepth 40000

/-! ### Bridge lemmas between the kernel-computable rational operations and
  the standard field structure of the rationals -/

theorem qleb_iff (a b : ℚ) : qleb a b = true ↔ a ≤ b := by
  rw [qleb, decide_eq_true_eq, Rat.le_def]

theorem qltb_iff (a b : ℚ) : qltb a b = true ↔ a < b := by
  rw [qltb, decide_eq_true_eq, Rat.lt_def]

theorem qneg_eq (a : ℚ) : qneg a = -a := by
  rw [qneg, ← Rat.neg_divInt, Rat.divInt_self]

theorem qmul_eq (a b : ℚ) : qmul a b = a * b := by
  rw [qmul, Rat.divInt_eq_div]
  push_cast
  rw [← div_mul_div_comm, Rat.num_div_den, Rat.num_div_den]

theorem UMC_MAXF_eq : UMC_MAXF = (2147483648 : ℚ) := by
  have h : UMC_MAXF = Rat.divInt 2147483648 1 := by decide
  rw [h, Rat.divInt_eq_div]
  norm_num

/-! ### C8: the UMC202HD sample converters -/

/-- C8 counterexample: the claim says that away from saturation f32_to_i32
  scales by 2^31 - 1 and rounds to nearest, but at input 3/4 the converter
  yields 1610612736, while rounding (3/4) * (2^31 - 1) to nearest yields
  1610612735.  The Rust literal 2147483647.0 is not a binary32 value; it
  rounds to 2^31, so the code scales by 2^31. -/
theorem umc_f32_to_i32_scale_constant_cex :
    f32_to_i32 [3/4] [0] = [1610612736] ∧
    rustRound ((3/4 : ℚ) * 2147483647) = 1610612735 ∧
    (1610612736 : Int) ≠ 1610612735 := by
  refine ⟨?_, ?_, by decide⟩
  · have h : ([3/4] : List ℚ) = [Rat.divInt 3 4] := by norm_num [Rat.divInt_eq_div]
    rw [h]; decide
  · have h : ((3:ℚ)/4 * 2147483647) = Rat.divInt 6442450941 4 := by
      rw [Rat.divInt_eq_div]; norm_num
    rw [h]; decide

/-- C8 (amended): for x in {-1, -1/2, 0, 1/2, 1} the i32 round trip through
  f32_to_i32 and i32_to_f32 reproduces x exactly (so certainly within one
  ULP); f32_to_i32 saturates inputs at or above 1 to the i32 maximum and
  inputs at or below -1 to the i32 minimum; and otherwise it scales by
  2147483648 — the binary32 value of the source literal 2147483647.0 —
  and rounds to nearest, ties away from zero, with a saturating cast. -/
theorem umc_sample_conversion_roundtrip :
    (i32_to_f32 (f32_to_i32 [-1, -(1/2), 0, 1/2, 1] [0, 0, 0, 0, 0]) [0, 0, 0, 0, 0]
      = [-1, -(1/2), 0, 1/2, 1]) ∧
    (∀ s : ℚ, 1 ≤ s → f32_to_i32_elem s = 2147483647) ∧
    (∀ s : ℚ, s ≤ -1 → f32_to_i32_elem s = -2147483648) ∧
    UMC_MAXF = 2147483648 ∧
    (∀ s : ℚ, -1 < s → s < 1 →
      f32_to_i32_elem s = i32sat (rustRound (f32round (s * 2147483648)))) := by
  refine ⟨?_, ?_, ?_, UMC_MAXF_eq, ?_⟩
  · have h : ([-1, -(1/2), 0, 1/2, 1] : List ℚ)
        = [qneg 1, Rat.divInt (-1) 2, 0, Rat.divInt 1 2, 1] := by
      norm_num [qneg_eq, Rat.divInt_eq_div]
    rw [h]; decide
  · intro s hs
    rw [f32_to_i32_elem, if_pos ((qleb_iff 1 s).mpr hs)]
  · intro s hs
    have h1 : ¬ (qleb 1 s = true) := by
      rw [qleb_iff]; linarith
    have h2 : qleb s (qneg 1) = true := by
      rw [qleb_iff, qneg_eq]; exact hs
    rw [f32_to_i32_elem, if_neg h1, if_pos h2]
  · intro s hlo hhi
    have h1 : ¬ (qleb 1 s = true) := by
      rw [qleb_iff]; linarith
    have h2 : ¬ (qleb s (qneg 1) = true) := by
      rw [qleb_iff, qneg_eq]; linarith
    rw [f32_to_i32_elem, if_neg h1, if_neg h2, qmul_eq, UMC_MAXF_eq]

/-- C8 witness: the saturation and scaling clauses of the amended claim
  instantiated at the concrete inputs 3/2, -3/2 and 0. -/
theorem umc_sample_conversion_roundtrip_witness :
    f32_to_i32_elem (Rat.divInt 3 2) = 2147483647 ∧
    f32_to_i32_elem (Rat.divInt (-3) 2) = -2147483648 ∧
    f32_to_i32_elem 0 = i32sat (rustRound (f32round ((0 : ℚ) * 2147483648))) := by
  refine ⟨?_, ?_, ?_⟩
  · exact umc_sample_conversion_roundtrip.2.1 (Rat.divInt 3 2) (by decide)
  · exact umc_sample_conversion_roundtrip.2.2.1 (Rat.divInt (-3) 2) (by decide)
  · exact umc_sample_conversion_roundtrip.2.2.2.2 0 (by decide) (by decide)

/-! ### C6: query_devices buffer contract -/

/-- C6: for a device list of L bytes and a caller buffer of length len,
  query_devices copies exactly min(L, len - 1) list bytes, writes a null
  terminator right after them whenever len is positive, writes nothing at
  all when len is zero, and returns OK. -/
theorem query_devices_truncates_and_terminates (bytes buf : List Nat) :
    (queryDevicesWrite bytes buf).2 = OA_OK ∧
    (buf.length = 0 → (queryDevicesWrite bytes buf).1 = buf) ∧
    (0 < buf.length →
      (queryDevicesWrite bytes buf).1 =
        bytes.take (min bytes.length (buf.length - 1)) ++
          0 :: buf.drop (min bytes.length (buf.length - 1) + 1)) := by
  refine ⟨rfl, ?_, ?_⟩
  · intro h
    simp [queryDevicesWrite, h]
  · intro hlen
    have hnlt : min bytes.length (buf.length - 1) < buf.length := by
      have := Nat.min_le_right bytes.length (buf.length - 1)
      omega
    simp only [queryDevicesWrite, if_pos hlen]
    by_cases h0 : 0 < min bytes.length (buf.length - 1)
    · rw [if_pos h0]
      have hlt : (bytes.take (min bytes.length (buf.length - 1))).length
          = min bytes.length (buf.length - 1) := by
        rw [List.length_take]
        exact Nat.min_eq_left (Nat.min_le_left _ _)
      rw [List.set_append, if_neg (by omega), hlt, Nat.sub_self,
        List.drop_eq_getElem_cons hnlt]
      rfl
    · have hz : min bytes.length (buf.length - 1) = 0 := by omega
      rw [if_neg h0, hz]
      rcases buf with _ | ⟨b, t⟩
      · simp at hlen
      · rfl

/-- C6 witness: a three-byte list into a two-byte buffer keeps one byte and
  the terminator. -/
theorem query_devices_truncates_and_terminates_witness :
    (queryDevicesWrite [7, 8, 9] [1, 1]).2 = OA_OK ∧
    (queryDevicesWrite [7, 8, 9] [1, 1]).1 =
      [7, 8, 9].take (min 3 1) ++ 0 :: [1, 1].drop (min 3 1 + 1) :=
  ⟨(query_devices_truncates_and_terminates [7, 8, 9] [1, 1]).1,
   (query_devices_truncates_and_terminates [7, 8, 9] [1, 1]).2.2 (by decide)⟩

/-! ### C7: UMC202HD start with an unsupported config -/

/-- C7: a start whose config carries a sample rate outside the support
  matrix returns UNSUPPORTED, opens no device (no control events), and
  leaves the driver state untouched. -/
theorem umc_start_unsupported_rate_unchanged (env : CtlEnv) (st : UmcState)
    (cfg : OaStreamConfig) (h : cfg.sample_rate ∉ SUPPORTED_SAMPLE_RATES) :
    umcStart env st (some cfg) = (OA_ERR_UNSUPPORTED, st, ([] : List CtlEv)) := by
  have hv : ∃ msg, validate_config cfg = Except.error msg := by
    rw [validate_config]
    by_cases h1 : cfg.format ≠ OaSampleFormat.f32
    · rw [if_pos h1]; exact ⟨_, rfl⟩
    rw [if_neg h1]
    by_cases h2 : cfg.out_channels ≠ 2
    · rw [if_pos h2]; exact ⟨_, rfl⟩
    rw [if_neg h2]
    by_cases h3 : cfg.in_channels ≠ 0 ∧ cfg.in_channels ≠ 2
    · rw [if_pos h3]; exact ⟨_, rfl⟩
    rw [if_neg h3, if_pos h]
    exact ⟨_, rfl⟩
  obtain ⟨msg, hm⟩ := hv
  simp [umcStart, hm]

/-- C7 witness: the spec scenario, sample rate 12345 on a fresh driver. -/
theorem umc_start_unsupported_rate_unchanged_witness :
    umcStart ctlEnvOk umcInitState (some cfgRate12345)
      = (OA_ERR_UNSUPPORTED, umcInitState, ([] : List CtlEv)) :=
  umc_start_unsupported_rate_unchanged ctlEnvOk umcInitState cfgRate12345 (by decide)

/-! ### C4: host wrapper drop order -/

/-- C4: evaluation of the host wrapper drop at the failing input (dropping
  any loaded driver).  The drop performs only the vtable close_device call
  followed by the library release from field drop; it never performs the
  vtable stop call and never invokes openasio_driver_destroy, contradicting
  the claimed stop, close, destroy, release order. -/
theorem host_driver_drop_omits_stop_and_destroy :
    driverDropTrace
      = [HostDropEv.vtCloseDevice, HostDropEv.releaseLibrary, HostDropEv.freeThunk] ∧
    HostDropEv.vtStop ∉ driverDropTrace ∧
    HostDropEv.callDestroy ∉ driverDropTrace :=
  ⟨rfl, by decide, by decide⟩

/-! ### C9: host wrapper error lifting -/

/-- C9 counterexample: the wrapper start returns Ok () even though the
  vtable start call produced the negative DEVICE result code, so it is not
  true that every wrapper control operation turns a negative code into an
  error. -/
theorem host_start_ignores_result_code :
    OA_ERR_DEVICE < 0 ∧ hostStart OA_ERR_DEVICE = Except.ok () :=
  ⟨by decide, rfl⟩

/-- C9 (amended): enumerate_devices, open_device and get_default_config
  lift a negative vtable result code into an error naming the failing
  operation and return Ok exactly on non-negative codes; the wrapper start
  never inspects the code and returns Ok unconditionally. -/
theorem host_wrapper_lifts_errors :
    (∀ rc buf, rc < 0 →
      hostEnumerateDevices rc buf = Except.error ("query_devices rc=" ++ toString rc)) ∧
    (∀ rc buf, 0 ≤ rc →
      hostEnumerateDevices rc buf = Except.ok (rustLines (cstrBytes buf))) ∧
    (∀ rc, rc < 0 → hostOpenDevice rc = Except.error ("open_device rc=" ++ toString rc)) ∧
    (∀ rc, 0 ≤ rc → hostOpenDevice rc = Except.ok ()) ∧
    (∀ rc c, rc < 0 →
      hostDefaultConfig rc c = Except.error ("get_default_config rc=" ++ toString rc)) ∧
    (∀ rc c, 0 ≤ rc → hostDefaultConfig rc c = Except.ok (toStreamConfig c)) ∧
    (∀ rc, hostStart rc = Except.ok ()) := by
  refine ⟨?_, ?_, ?_, ?_, ?_, ?_, fun _ => rfl⟩
  · intro rc buf h; rw [hostEnumerateDevices, if_pos h]
  · intro rc buf h; rw [hostEnumerateDevices, if_neg (by omega)]
  · intro rc h; rw [hostOpenDevice, if_pos h]
  · intro rc h; rw [hostOpenDevice, if_neg (by omega)]
  · intro rc c h; rw [hostDefaultConfig, if_pos h]
  · intro rc c h; rw [hostDefaultConfig, if_neg (by omega)]

/-- C9 witness: open_device at the DEVICE failure code and at OK. -/
theorem host_wrapper_lifts_errors_witness :
    hostOpenDevice OA_ERR_DEVICE
      = Except.error ("open_device rc=" ++ toString OA_ERR_DEVICE) ∧
    hostOpenDevice OA_OK = Except.ok () :=
  ⟨host_wrapper_lifts_errors.2.2.1 OA_ERR_DEVICE (by decide),
   host_wrapper_lifts_errors.2.2.2.1 OA_OK (by decide)⟩

/-! ### C10: create and destroy entry point null handling -/

/-- C10: every driver create returns INVALID_ARG on a null params or out
  pointer and stores nothing through out, and every driver destroy is a
  no-op on a null driver pointer. -/
theorem driver_create_null_args_rejected :
    (∀ p b, p = none ∨ b = true → umcDriverCreate p b = (OA_ERR_INVALID_ARG, none)) ∧
    (∀ p b, p = none ∨ b = true → alsaDriverCreate p b = (OA_ERR_INVALID_ARG, none)) ∧
    (∀ p b, p = none ∨ b = true → cpalDriverCreate p b = (OA_ERR_INVALID_ARG, none)) ∧
    umcDriverDestroy none = [] ∧ alsaDriverDestroy none = [] ∧ cpalDriverDestroy none = [] := by
  refine ⟨?_, ?_, ?_, rfl, rfl, rfl⟩ <;>
  · intro p b h
    rcases h with h | h
    · subst h; rfl
    · subst h; cases p <;> rfl

/-- C10 witness: null params, null out, and both, across the drivers. -/
theorem driver_create_null_args_rejected_witness :
    umcDriverCreate none false = (OA_ERR_INVALID_ARG, none) ∧
    alsaDriverCreate (some { struct_size := 24, host := some ⟨true, true, true⟩ }) true
      = (OA_ERR_INVALID_ARG, none) ∧
    cpalDriverCreate none true = (OA_ERR_INVALID_ARG, none) :=
  ⟨driver_create_null_args_rejected.1 none false (Or.inl rfl),
   driver_create_null_args_rejected.2.1 _ true (Or.inr rfl),
   driver_create_null_args_rejected.2.2.1 none true (Or.inl rfl)⟩

/-! ### Structural lemmas on the RT period phases -/

theorem listOverwrite_take_replicate (dst : List α) (n : Nat) (x : α) (h : n ≤ dst.length) :
    (listOverwrite dst (List.replicate n x)).take n = List.replicate n x := by
  rw [listOverwrite, List.take_replicate, Nat.min_eq_right h, List.take_append_eq_append_take,
    List.take_replicate, Nat.min_self, List.length_replicate, Nat.sub_self, List.take_zero,
    List.append_nil]

theorem u32wrap_eq_of_lt {n : Nat} (h : n < 4294967296) : u32wrap n = n :=
  Nat.mod_eq_of_lt h

theorem umcCapture_proj (env : RtEnv) (p : Nat) (st : UmcState) :
    (umcCapture env p st).cfg = st.cfg ∧
    (umcCapture env p st).out_buf = st.out_buf ∧
    (umcCapture env p st).scratch_out = st.scratch_out ∧
    (umcCapture env p st).running = st.running ∧
    (umcCapture env p st).underruns = st.underruns ∧
    ((umcCapture env p st).overruns = st.overruns ∨
      (umcCapture env p st).overruns = u32wrap (st.overruns + 1)) := by
  rw [umcCapture]
  rcases hio : st.ioCap with _ | c
  · exact ⟨rfl, rfl, rfl, rfl, rfl, Or.inl rfl⟩
  · rcases hr : env.readRes p with e | r
    · rcases e with _ | _
      · exact ⟨rfl, rfl, rfl, rfl, rfl, Or.inr rfl⟩
      · exact ⟨rfl, rfl, rfl, rfl, rfl, Or.inl rfl⟩
    · exact ⟨rfl, rfl, rfl, rfl, rfl, Or.inl rfl⟩

theorem umcClear_proj (st : UmcState) :
    (umcClear st).cfg = st.cfg ∧
    (umcClear st).running = st.running ∧
    (umcClear st).underruns = st.underruns ∧
    (umcClear st).overruns = st.overruns := by
  simp only [umcClear]
  by_cases hl : st.cfg.layout = OaBufferLayout.interleaved
  · rw [if_pos hl]; exact ⟨rfl, rfl, rfl, rfl⟩
  · rw [if_neg hl]; exact ⟨rfl, rfl, rfl, rfl⟩

theorem umcSetStage_proj (st : UmcState) (l : List ℚ) :
    (umcSetStage st l).cfg = st.cfg ∧
    (umcSetStage st l).running = st.running ∧
    (umcSetStage st l).underruns = st.underruns ∧
    (umcSetStage st l).overruns = st.overruns := by
  simp only [umcSetStage]
  by_cases hl : st.cfg.layout = OaBufferLayout.interleaved
  · rw [if_pos hl]; exact ⟨rfl, rfl, rfl, rfl⟩
  · rw [if_neg hl]; exact ⟨rfl, rfl, rfl, rfl⟩

theorem umcDestage_proj (st : UmcState) :
    (umcDestage st).cfg = st.cfg ∧
    (umcDestage st).running = st.running ∧
    (umcDestage st).underruns = st.underruns ∧
    (umcDestage st).overruns = st.overruns := by
  simp only [umcDestage]
  by_cases hl : st.cfg.layout = OaBufferLayout.interleaved
  · rw [if_pos hl]; exact ⟨rfl, rfl, rfl, rfl⟩
  · rw [if_neg hl]; exact ⟨rfl, rfl, rfl, rfl⟩

theorem umcConvertOut_proj (st : UmcState) :
    (umcConvertOut st).cfg = st.cfg ∧
    (umcConvertOut st).running = st.running ∧
    (umcConvertOut st).underruns = st.underruns ∧
    (umcConvertOut st).overruns = st.overruns :=
  ⟨rfl, rfl, rfl, rfl⟩

theorem umcPlayback_proj (env : RtEnv) (p : Nat) (st : UmcState) :
    (umcPlayback env p st).1.cfg = st.cfg ∧
    (umcPlayback env p st).1.running = st.running ∧
    (umcPlayback env p st).1.overruns = st.overruns ∧
    ((umcPlayback env p st).1.underruns = st.underruns ∨
      (umcPlayback env p st).1.underruns = u32wrap (st.underruns + 1)) := by
  rw [umcPlayback]
  rcases hio : st.ioPb with _ | c
  · exact ⟨rfl, rfl, rfl, Or.inl rfl⟩
  · rcases hw : env.writeRes p with _ | e
    · exact ⟨rfl, rfl, rfl, Or.inl rfl⟩
    · rcases e with _ | _
      · exact ⟨rfl, rfl, rfl, Or.inr rfl⟩
      · exact ⟨rfl, rfl, rfl, Or.inl rfl⟩

theorem umcStepRest_counters (env : RtEnv) (p : Nat) (s : UmcState) :
    ((umcStepRest env p s).1.underruns = s.underruns ∨
      (umcStepRest env p s).1.underruns = u32wrap (s.underruns + 1)) ∧
    (umcStepRest env p s).1.overruns = s.overruns ∧
    (umcStepRest env p s).1.running = s.running := by
  rw [umcStepRest]
  have hd := umcDestage_proj s
  have hc := umcConvertOut_proj (umcDestage s)
  have hp := umcPlayback_proj env p (umcConvertOut (umcDestage s))
  have hu : (umcConvertOut (umcDestage s)).underruns = s.underruns := by
    rw [hc.2.2.1, hd.2.2.1]
  refine ⟨?_, ?_, ?_⟩
  · rcases hp.2.2.2 with h | h
    · exact Or.inl (h.trans hu)
    · rw [hu] at h; exact Or.inr h
  · rw [hp.2.2.1, hc.2.2.2, hd.2.2.2]
  · rw [hp.2.1, hc.2.1, hd.2.1]

theorem umcStep_counters (env : RtEnv) (p : Nat) (st : UmcState) :
    ((umcStep env p st).1.underruns = st.underruns ∨
      (umcStep env p st).1.underruns = u32wrap (st.underruns + 1)) ∧
    ((umcStep env p st).1.overruns = st.overruns ∨
      (umcStep env p st).1.overruns = u32wrap (st.overruns + 1)) := by
  have hcap := umcCapture_proj env p st
  have hclr := umcClear_proj (umcCapture env p st)
  have hu1 : (umcClear (umcCapture env p st)).underruns = st.underruns := by
    rw [hclr.2.2.1, hcap.2.2.2.2.1]
  have ho1 : (umcClear (umcCapture env p st)).overruns = (umcCapture env p st).overruns :=
    hclr.2.2.2
  simp only [umcStep]
  by_cases hp : env.hasProcess = true
  · rw [if_pos hp]
    by_cases hk : (env.process p (umcInPtr (umcClear (umcCapture env p st)))
        (umcStage (umcClear (umcCapture env p st)))).1 = true
    · rw [if_pos hk]
      have hss := umcSetStage_proj (umcClear (umcCapture env p st))
        (env.process p (umcInPtr (umcClear (umcCapture env p st)))
          (umcStage (umcClear (umcCapture env p st)))).2
      have hrest := umcStepRest_counters env p (umcSetStage (umcClear (umcCapture env p st))
        (env.process p (umcInPtr (umcClear (umcCapture env p st)))
          (umcStage (umcClear (umcCapture env p st)))).2)
      have hssu := hss.2.2.1.trans hu1
      have hsso := hss.2.2.2.trans ho1
      constructor
      · rcases hrest.1 with h | h
        · exact Or.inl (h.trans hssu)
        · rw [hssu] at h; exact Or.inr h
      · rcases hcap.2.2.2.2.2 with h | h
        · exact Or.inl ((hrest.2.1.trans hsso).trans h)
        · exact Or.inr ((hrest.2.1.trans hsso).trans h)
    · rw [if_neg hk]
      have hss := umcSetStage_proj (umcClear (umcCapture env p st))
        (env.process p (umcInPtr (umcClear (umcCapture env p st)))
          (umcStage (umcClear (umcCapture env p st)))).2
      constructor
      · exact Or.inl (hss.2.2.1.trans hu1)
      · rcases hcap.2.2.2.2.2 with h | h
        · exact Or.inl ((hss.2.2.2.trans ho1).trans h)
        · exact Or.inr ((hss.2.2.2.trans ho1).trans h)
  · rw [if_neg hp]
    have hrest := umcStepRest_counters env p (umcClear (umcCapture env p st))
    constructor
    · rcases hrest.1 with h | h
      · exact Or.inl (h.trans hu1)
      · rw [hu1] at h; exact Or.inr h
    · rcases hcap.2.2.2.2.2 with h | h
      · exact Or.inl ((hrest.2.1.trans ho1).trans h)
      · exact Or.inr ((hrest.2.1.trans ho1).trans h)

theorem umcRun_counters (env : RtEnv) (fuel p : Nat) (st : UmcState)
    (h1 : st.underruns + fuel < 4294967296) (h2 : st.overruns + fuel < 4294967296) :
    st.underruns ≤ (umcRun env fuel p st).1.underruns ∧
    st.overruns ≤ (umcRun env fuel p st).1.overruns := by
  induction fuel generalizing p st with
  | zero => exact ⟨Nat.le_refl _, Nat.le_refl _⟩
  | succ n ih =>
    rw [umcRun]
    by_cases hr : st.running = true
    · rw [if_pos hr]
      have hs := umcStep_counters env p st
      have hu : st.underruns ≤ (umcStep env p st).1.underruns ∧
          (umcStep env p st).1.underruns ≤ st.underruns + 1 := by
        rcases hs.1 with h | h
        · rw [h]; omega
        · rw [h, u32wrap_eq_of_lt (show st.underruns + 1 < 4294967296 by omega)]; omega
      have ho : st.overruns ≤ (umcStep env p st).1.overruns ∧
          (umcStep env p st).1.overruns ≤ st.overruns + 1 := by
        rcases hs.2 with h | h
        · rw [h]; omega
        · rw [h, u32wrap_eq_of_lt (show st.overruns + 1 < 4294967296 by omega)]; omega
      have hrec := ih (p + 1) (umcStep env p st).1 (by omega) (by omega)
      exact ⟨le_trans hu.1 hrec.1, le_trans ho.1 hrec.2⟩
    · rw [if_neg hr]; exact ⟨Nat.le_refl _, Nat.le_refl _⟩

theorem alsaCapture_proj (env : RtEnv) (p : Nat) (st : AlsaState) :
    (alsaCapture env p st).cfg = st.cfg ∧
    (alsaCapture env p st).out_buf = st.out_buf ∧
    (alsaCapture env p st).running = st.running ∧
    (alsaCapture env p st).overruns = st.overruns ∧
    ((alsaCapture env p st).underruns = st.underruns ∨
      (alsaCapture env p st).underruns = u32wrap (st.underruns + 1)) := by
  rw [alsaCapture]
  rcases hio : st.ioCap with _ | c
  · exact ⟨rfl, rfl, rfl, rfl, Or.inl rfl⟩
  · rcases hr : env.readRes p with e | r
    · rcases e with _ | _
      · exact ⟨rfl, rfl, rfl, rfl, Or.inr rfl⟩
      · exact ⟨rfl, rfl, rfl, rfl, Or.inl rfl⟩
    · exact ⟨rfl, rfl, rfl, rfl, Or.inl rfl⟩

theorem alsaPlayback_proj (env : RtEnv) (p : Nat) (st : AlsaState) :
    (alsaPlayback env p st).1.cfg = st.cfg ∧
    (alsaPlayback env p st).1.running = st.running ∧
    (alsaPlayback env p st).1.overruns = st.overruns ∧
    ((alsaPlayback env p st).1.underruns = st.underruns ∨
      (alsaPlayback env p st).1.underruns = u32wrap (st.underruns + 1)) := by
  rw [alsaPlayback]
  rcases hio : st.ioPb with _ | c
  · exact ⟨rfl, rfl, rfl, Or.inl rfl⟩
  · rcases hw : env.writeRes p with _ | e
    · exact ⟨rfl, rfl, rfl, Or.inl rfl⟩
    · rcases e with _ | _
      · exact ⟨rfl, rfl, rfl, Or.inr rfl⟩
      · exact ⟨rfl, rfl, rfl, Or.inl rfl⟩

theorem alsaStep_counters (env : RtEnv) (p : Nat) (st : AlsaState) :
    ((alsaStep env p st).1.underruns = st.underruns ∨
      (alsaStep env p st).1.underruns = u32wrap (st.underruns + 1) ∨
      (alsaStep env p st).1.underruns = u32wrap (u32wrap (st.underruns + 1) + 1)) ∧
    (alsaStep env p st).1.overruns = st.overruns := by
  have hcap := alsaCapture_proj env p st
  simp only [alsaStep]
  by_cases hp : env.hasProcess = true
  · rw [if_pos hp]
    have hpb := alsaPlayback_proj env p
      { alsaCapture env p st with
        out_buf := listOverwrite (alsaCapture env p st).out_buf
          (((env.process p (alsaInPtr (alsaCapture env p st))
            ((alsaCapture env p st).out_buf.take
              ((alsaCapture env p st).cfg.buffer_frames
                * (alsaCapture env p st).cfg.out_channels))).2).take
            ((alsaCapture env p st).cfg.buffer_frames
              * (alsaCapture env p st).cfg.out_channels)) }
    have hmid : ({ alsaCapture env p st with
        out_buf := listOverwrite (alsaCapture env p st).out_buf
          (((env.process p (alsaInPtr (alsaCapture env p st))
            ((alsaCapture env p st).out_buf.take
              ((alsaCapture env p st).cfg.buffer_frames
                * (alsaCapture env p st).cfg.out_channels))).2).take
            ((alsaCapture env p st).cfg.buffer_frames
              * (alsaCapture env p st).cfg.out_channels)) } : AlsaState).underruns
        = (alsaCapture env p st).underruns := rfl
    constructor
    · rcases hpb.2.2.2 with h | h
      · rcases hcap.2.2.2.2 with hc | hc
        · exact Or.inl ((h.trans hmid).trans hc)
        · exact Or.inr (Or.inl ((h.trans hmid).trans hc))
      · rw [hmid] at h
        rcases hcap.2.2.2.2 with hc | hc
        · rw [hc] at h; exact Or.inr (Or.inl h)
        · rw [hc] at h; exact Or.inr (Or.inr h)
    · exact hpb.2.2.1.trans hcap.2.2.2.1
  · rw [if_neg hp]
    have hpb := alsaPlayback_proj env p (alsaCapture env p st)
    constructor
    · rcases hpb.2.2.2 with h | h
      · rcases hcap.2.2.2.2 with hc | hc
        · exact Or.inl (h.trans hc)
        · exact Or.inr (Or.inl (h.trans hc))
      · rcases hcap.2.2.2.2 with hc | hc
        · rw [hc] at h; exact Or.inr (Or.inl h)
        · rw [hc] at h; exact Or.inr (Or.inr h)
    · exact hpb.2.2.1.trans hcap.2.2.2.1

theorem alsaRun_overruns (env : RtEnv) (fuel p : Nat) (st : AlsaState) :
    (alsaRun env fuel p st).1.overruns = st.overruns := by
  induction fuel generalizing p st with
  | zero => rfl
  | succ n ih =>
    rw [alsaRun]
    by_cases hr : st.running = true
    · rw [if_pos hr]
      exact (ih (p + 1) (alsaStep env p st).1).trans (alsaStep_counters env p st).2
    · rw [if_neg hr]

theorem alsaRun_underruns (env : RtEnv) (fuel p : Nat) (st : AlsaState)
    (h : st.underruns + 2 * fuel < 4294967296) :
    st.underruns ≤ (alsaRun env fuel p st).1.underruns := by
  induction fuel generalizing p st with
  | zero => exact Nat.le_refl _
  | succ n ih =>
    rw [alsaRun]
    by_cases hr : st.running = true
    · rw [if_pos hr]
      have hs := (alsaStep_counters env p st).1
      have hb : st.underruns ≤ (alsaStep env p st).1.underruns ∧
          (alsaStep env p st).1.underruns ≤ st.underruns + 2 := by
        rcases hs with h1 | h1 | h1
        · rw [h1]; omega
        · rw [h1, u32wrap_eq_of_lt (show st.underruns + 1 < 4294967296 by omega)]; omega
        · rw [h1, u32wrap_eq_of_lt (show st.underruns + 1 < 4294967296 by omega),
            u32wrap_eq_of_lt (show st.underruns + 1 + 1 < 4294967296 by omega)]
          omega
      have hrec := ih (p + 1) (alsaStep env p st).1 (by omega)
      exact le_trans hb.1 hrec
    · rw [if_neg hr]

theorem umcRun_not_running (env : RtEnv) (fuel p : Nat) (st : UmcState)
    (h : st.running = false) : umcRun env fuel p st = (st, [], []) := by
  cases fuel with
  | zero => rfl
  | succ n => rw [umcRun, if_neg (by simp [h])]

theorem umcStep_keep_false_stops (env : RtEnv) (p : Nat) (st : UmcState) (pc : ProcCall)
    (hpc : (umcStep env p st).2.1 = some pc) (hk : pc.keep = false) :
    (umcStep env p st).1.running = false := by
  simp only [umcStep] at hpc ⊢
  by_cases hp : env.hasProcess = true
  · rw [if_pos hp] at hpc ⊢
    by_cases hkeep : (env.process p (umcInPtr (umcClear (umcCapture env p st)))
        (umcStage (umcClear (umcCapture env p st)))).1 = true
    · rw [if_pos hkeep] at hpc
      injection hpc with h2
      subst h2
      simp at hk
    · rw [if_neg hkeep]
  · rw [if_neg hp] at hpc
    simp at hpc

theorem umcStage_clear (s : UmcState)
    (h1 : s.cfg.buffer_frames * s.cfg.out_channels ≤ s.out_buf.length)
    (h2 : s.cfg.buffer_frames * s.cfg.out_channels ≤ s.scratch_out.length) :
    umcStage (umcClear s) = List.replicate (s.cfg.buffer_frames * s.cfg.out_channels) 0 := by
  simp only [umcStage, umcClear]
  by_cases hl : s.cfg.layout = OaBufferLayout.interleaved
  · simp only [if_pos hl]
    exact listOverwrite_take_replicate _ _ _ h1
  · simp only [if_neg hl]
    exact listOverwrite_take_replicate _ _ _ h2

theorem cpalStart_counters (st : CpalState) (cfg : OaStreamConfig) :
    (cpalStart st cfg).2.underruns = st.underruns ∧
    (cpalStart st cfg).2.overruns = st.overruns := by
  rw [cpalStart]
  rcases ho : st.outDevice with _ | d
  · exact ⟨rfl, rfl⟩
  · dsimp only
    by_cases hin : (st.inDevice.isSome && decide (0 < cfg.in_channels)) = true
    · rw [if_pos hin]; exact ⟨rfl, rfl⟩
    · rw [if_neg hin]; exact ⟨rfl, rfl⟩

theorem cpalOutCallback_counters (env : RtEnv) (p : Nat) (st : CpalState) (data : List ℚ) :
    (cpalOutCallback env p st data).1.underruns = st.underruns ∧
    (cpalOutCallback env p st data).1.overruns = st.overruns := by
  simp only [cpalOutCallback]
  by_cases hl : st.cfg.layout = OaBufferLayout.interleaved
  · rw [if_pos hl]
    by_cases hp : env.hasProcess = true
    · rw [if_pos hp]; exact ⟨rfl, rfl⟩
    · rw [if_neg hp]; exact ⟨rfl, rfl⟩
  · rw [if_neg hl]
    exact ⟨rfl, rfl⟩

theorem cpalInCallback_counters (st : CpalState) (data : List ℚ) :
    (cpalInCallback st data).underruns = st.underruns ∧
    (cpalInCallback st data).overruns = st.overruns :=
  ⟨rfl, rfl⟩

theorem umcStartAfterOpen_ok_counters (env : CtlEnv) (st : UmcState) (cfg : OaStreamConfig)
    (pb : Pcm) (cap : Option Pcm) (evs : List CtlEv)
    (h : (umcStartAfterOpen env st cfg pb cap evs).1 = OA_OK) :
    (umcStartAfterOpen env st cfg pb cap evs).2.1.underruns = 0 ∧
    (umcStartAfterOpen env st cfg pb cap evs).2.1.overruns = 0 := by
  simp only [umcStartAfterOpen] at h ⊢
  by_cases hb1 : env.hwSetup pb PcmDir.playback cfg = false
  · rw [if_pos hb1] at h
    have h2 : OA_ERR_BACKEND = OA_OK := h
    exact absurd h2 (by decide)
  · rw [if_neg hb1] at h ⊢
    by_cases hb2 : hwSetupCapOk env cap cfg = false
    · rw [if_pos hb2] at h
      have h2 : OA_ERR_BACKEND = OA_OK := h
      exact absurd h2 (by decide)
    · rw [if_neg hb2] at h ⊢
      exact ⟨rfl, rfl⟩

theorem umcStart_ok_counters (env : CtlEnv) (st : UmcState) (cfg : OaStreamConfig)
    (h : (umcStart env st (some cfg)).1 = OA_OK) :
    (umcStart env st (some cfg)).2.1.underruns = 0 ∧
    (umcStart env st (some cfg)).2.1.overruns = 0 := by
  simp only [umcStart] at h ⊢
  rcases hv : validate_config cfg with e | u
  · rw [hv] at h
    have h2 : OA_ERR_UNSUPPORTED = OA_OK := h
    exact absurd h2 (by decide)
  · rw [hv] at h
    rcases hpb : env.pcmNew ((umcStopWorker st).devName.getD env.umcDefaultName)
        PcmDir.playback with _ | pb
    · rw [hpb] at h
      have h2 : OA_ERR_DEVICE = OA_OK := h
      exact absurd h2 (by decide)
    · rw [hpb] at h
      dsimp only at h ⊢
      by_cases hich : 0 < cfg.in_channels
      · rw [if_pos hich] at h ⊢
        rcases hcapd : env.pcmNew ((umcStopWorker st).devName.getD env.umcDefaultName)
            PcmDir.capture with _ | cap
        · rw [hcapd] at h
          have h2 : OA_ERR_DEVICE = OA_OK := h
          exact absurd h2 (by decide)
        · rw [hcapd] at h
          exact umcStartAfterOpen_ok_counters env _ cfg pb (some cap) _ h
      · rw [if_neg hich] at h ⊢
        exact umcStartAfterOpen_ok_counters env _ cfg pb none _ h

theorem alsaStartAfterOpen_counters (env : CtlEnv) (st : AlsaState) (cfg : OaStreamConfig)
    (pb : Pcm) (cap : Option Pcm) (evs : List CtlEv) :
    (alsaStartAfterOpen env st cfg pb cap evs).2.1.underruns = st.underruns ∧
    (alsaStartAfterOpen env st cfg pb cap evs).2.1.overruns = st.overruns := by
  simp only [alsaStartAfterOpen]
  by_cases hb1 : hwSetupCapOk env cap cfg = false
  · rw [if_pos hb1]
    exact ⟨rfl, rfl⟩
  · rw [if_neg hb1]
    by_cases hb2 : env.hwSetup pb PcmDir.playback cfg = false
    · rw [if_pos hb2]; exact ⟨rfl, rfl⟩
    · rw [if_neg hb2]; exact ⟨rfl, rfl⟩

theorem alsaStart_counters (env : CtlEnv) (st : AlsaState) (cfg : OaStreamConfig) :
    (alsaStart env st (some cfg)).2.1.underruns = 0 ∧
    (alsaStart env st (some cfg)).2.1.overruns = 0 := by
  simp only [alsaStart]
  rcases hpb : env.pcmNew ((alsaStopWorker st).devName.getD "default")
      PcmDir.playback with _ | pb
  · exact ⟨rfl, rfl⟩
  · dsimp only
    by_cases hich : 0 < cfg.in_channels
    · rw [if_pos hich]
      rcases hcapd : env.pcmNew ((alsaStopWorker st).devName.getD "default")
          PcmDir.capture with _ | cap
      · exact ⟨rfl, rfl⟩
      · exact alsaStartAfterOpen_counters env _ cfg pb (some cap) _
    · rw [if_neg hich]
      exact alsaStartAfterOpen_counters env _ cfg pb none _

/-! ### C1: a false return from the host process callback -/

/-- C1 counterexample: in the alsa17h driver the host returns false on
  period zero, yet running stays true and process is invoked again on
  period one, so a false return does not behave like a stop request in
  every driver. -/
theorem alsa_process_false_ignored :
    ((alsaRun rtEnvRefuse 2 0 alsaStRefuse).2.1.getD 0 pcDefault).keep = false ∧
    (alsaRun rtEnvRefuse 2 0 alsaStRefuse).2.1.length = 2 ∧
    (alsaRun rtEnvRefuse 2 0 alsaStRefuse).1.running = true := by decide

/-- C1 (amended): in the UMC202HD driver, a period whose process callback
  returns false leaves the loop body with running cleared, and in any
  bounded observation of the worker loop every process call except possibly
  the final one returned true — that is, no process call ever follows a
  false return.  The alsa17h driver (and the cpal driver) discard the
  return value instead. -/
theorem umc_process_false_stops :
    (∀ env p st pc, (umcStep env p st).2.1 = some pc → pc.keep = false →
      (umcStep env p st).1.running = false) ∧
    (∀ env fuel p st i, i + 1 < (umcRun env fuel p st).2.1.length →
      ((umcRun env fuel p st).2.1.getD i pcDefault).keep = true) := by
  refine ⟨umcStep_keep_false_stops, ?_⟩
  intro env fuel
  induction fuel with
  | zero =>
    intro p st i h
    simp [umcRun] at h
  | succ n ih =>
    intro p st i h
    simp only [umcRun] at h ⊢
    by_cases hr : st.running = true
    · rw [if_pos hr] at h ⊢
      rcases hpc : (umcStep env p st).2.1 with _ | pc
    -- the rcases substitutes in the goal but not in h, so align h as well
      all_goals rw [hpc] at h
      · simp only [Option.toList, List.nil_append] at h ⊢
        exact ih (p + 1) (umcStep env p st).1 i h
      · simp only [Option.toList, List.singleton_append, List.length_cons] at h ⊢
        by_cases hk : pc.keep = true
        · cases i with
          | zero =>
            rw [List.getD_cons_zero]
            exact hk
          | succ j =>
            rw [List.getD_cons_succ]
            exact ih (p + 1) (umcStep env p st).1 j (by omega)
        · have hkf : pc.keep = false := by
            simpa using hk
          have hstop := umcStep_keep_false_stops env p st pc hpc hkf
          have hrest := umcRun_not_running env n (p + 1) (umcStep env p st).1 hstop
          rw [hrest] at h
          simp at h
    · rw [if_neg hr] at h
      simp at h

/-- C1 witness: two periods of the UMC loop with a host that keeps running;
  the first of the two recorded calls returned true, and a host refusing on
  period zero leaves the loop state stopped. -/
theorem umc_process_false_stops_witness :
    ((umcRun rtEnvKeep 2 0 umcRunSt).2.1.getD 0 pcDefault).keep = true ∧
    (umcStep rtEnvRefuse 0 umcRunSt).1.running = false := by
  constructor
  · exact umc_process_false_stops.2 rtEnvKeep 2 0 umcRunSt 0 (by decide)
  · exact umc_process_false_stops.1 rtEnvRefuse 0 umcRunSt
      { inp := none, outPrev := [0, 0], keep := false } (by decide) rfl

/-! ### C2: xrun counter reset and monotonicity -/

/-- C2 counterexample: a successful cpal start leaves previously
  accumulated counter values in place instead of storing zero. -/
theorem cpal_start_keeps_counters :
    (cpalStart cpalStCounters cfgMono2).1 = OA_OK ∧
    (cpalStart cpalStCounters cfgMono2).2.underruns = 5 ∧
    (cpalStart cpalStCounters cfgMono2).2.overruns = 7 := by decide

/-- C2 (amended): the xrun counters are AtomicU32 values changed only by
  wrapping fetch_add increments on the RT path, so along any bounded
  observation of the RT loop during which they cannot wrap they are
  monotonically non-decreasing: in the UMC202HD driver each counter grows
  by at most one per period, and in the alsa17h driver underruns grows by
  at most two per period while overruns never changes at all.  A
  successful UMC202HD start and every alsa17h start store zero into both
  counters before the RT path runs; the cpal start and the cpal callbacks
  leave both counters unchanged. -/
theorem xrun_counters_monotone_and_reset :
    (∀ env fuel p st, st.underruns + fuel < 4294967296 →
      st.overruns + fuel < 4294967296 →
      st.underruns ≤ (umcRun env fuel p st).1.underruns ∧
      st.overruns ≤ (umcRun env fuel p st).1.overruns) ∧
    (∀ env fuel p st, st.underruns + 2 * fuel < 4294967296 →
      st.underruns ≤ (alsaRun env fuel p st).1.underruns) ∧
    (∀ env fuel p st, (alsaRun env fuel p st).1.overruns = st.overruns) ∧
    (∀ env st cfg, (umcStart env st (some cfg)).1 = OA_OK →
      (umcStart env st (some cfg)).2.1.underruns = 0 ∧
      (umcStart env st (some cfg)).2.1.overruns = 0) ∧
    (∀ env st cfg, (alsaStart env st (some cfg)).2.1.underruns = 0 ∧
      (alsaStart env st (some cfg)).2.1.overruns = 0) ∧
    (∀ st cfg, (cpalStart st cfg).2.underruns = st.underruns ∧
      (cpalStart st cfg).2.overruns = st.overruns) ∧
    (∀ env p st data, (cpalOutCallback env p st data).1.underruns = st.underruns ∧
      (cpalOutCallback env p st data).1.overruns = st.overruns) ∧
    (∀ st data, (cpalInCallback st data).underruns = st.underruns ∧
      (cpalInCallback st data).overruns = st.overruns) :=
  ⟨umcRun_counters, alsaRun_underruns, alsaRun_overruns, umcStart_ok_counters,
   alsaStart_counters, cpalStart_counters, cpalOutCallback_counters, cpalInCallback_counters⟩

/-- C2 witness: a successful concrete UMC start zeroes both counters; one
  observed UMC period from counter values one and two does not decrease
  them under the concrete no-wrap bounds; and one observed alsa17h period
  does not decrease underruns. -/
theorem xrun_counters_monotone_and_reset_witness :
    ((umcStart ctlEnvOk
        { umcInitState with underruns := 9, overruns := 9 }
        (some { sample_rate := 48000, buffer_frames := 2, in_channels := 0, out_channels := 2,
                format := OaSampleFormat.f32, layout := OaBufferLayout.interleaved })).2.1.underruns
      = 0 ∧
     (umcStart ctlEnvOk
        { umcInitState with underruns := 9, overruns := 9 }
        (some { sample_rate := 48000, buffer_frames := 2, in_channels := 0, out_channels := 2,
                format := OaSampleFormat.f32, layout := OaBufferLayout.interleaved })).2.1.overruns
      = 0) ∧
    ({ umcRunSt with underruns := 1, overruns := 2 }.underruns
      ≤ (umcRun rtEnvKeep 1 0 { umcRunSt with underruns := 1, overruns := 2 }).1.underruns ∧
     { umcRunSt with underruns := 1, overruns := 2 }.overruns
      ≤ (umcRun rtEnvKeep 1 0 { umcRunSt with underruns := 1, overruns := 2 }).1.overruns) ∧
    alsaStRefuse.underruns ≤ (alsaRun rtEnvKeep 1 0 alsaStRefuse).1.underruns := by
  refine ⟨?_, ?_, ?_⟩
  · exact xrun_counters_monotone_and_reset.2.2.2.1 ctlEnvOk
      { umcInitState with underruns := 9, overruns := 9 }
      { sample_rate := 48000, buffer_frames := 2, in_channels := 0, out_channels := 2,
        format := OaSampleFormat.f32, layout := OaBufferLayout.interleaved } (by decide)
  · exact xrun_counters_monotone_and_reset.1 rtEnvKeep 1 0
      { umcRunSt with underruns := 1, overruns := 2 } (by decide) (by decide)
  · exact xrun_counters_monotone_and_reset.2.1 rtEnvKeep 1 0 alsaStRefuse (by decide)

/-! ### C3: counter used for a capture EPIPE -/

/-- C3: evaluation of both pull-model capture paths at the failing input, a
  capture read that fails with EPIPE.  The alsa17h driver re-prepares the
  device but increments underruns, leaving overruns untouched, against the
  claim; the UMC202HD driver increments overruns as the claim says. -/
theorem alsa_capture_epipe_counts_underrun :
    ((alsaStep rtEnvEpipeRead 0 alsaStCap).1.underruns = alsaStCap.underruns + 1 ∧
     (alsaStep rtEnvEpipeRead 0 alsaStCap).1.overruns = alsaStCap.overruns ∧
     (alsaStep rtEnvEpipeRead 0 alsaStCap).1.events = alsaStCap.events ++ [RtEv.prepareCap]) ∧
    ((umcStep rtEnvEpipeRead 0 umcStCap).1.overruns = umcStCap.overruns + 1 ∧
     (umcStep rtEnvEpipeRead 0 umcStCap).1.underruns = umcStCap.underruns ∧
     (umcStep rtEnvEpipeRead 0 umcStCap).1.events = umcStCap.events ++ [RtEv.prepareCap]) := by
  decide

/-! ### C5: output staging cleared before the host callback -/

/-- C5 counterexample: the alsa17h driver hands the host the staging
  contents left over from the previous period.  With a host writing ones on
  period zero and nothing afterwards, the period-one process call sees the
  stale ones, and the period-one delivered block replays them instead of
  silence. -/
theorem alsa_output_staging_stale :
    ((alsaRun rtEnvWriteOnce 2 0 alsaStStale).2.1.getD 1 pcDefault).outPrev = [1, 1, 1, 1] ∧
    ((alsaRun rtEnvWriteOnce 2 0 alsaStStale).2.1.getD 1 pcDefault).outPrev
      ≠ List.replicate 4 (0 : ℚ) ∧
    (alsaRun rtEnvWriteOnce 2 0 alsaStStale).2.2.getD 1 [] = [1, 1, 1, 1] := by decide

/-- C5 (amended): in the UMC202HD driver, whenever a period invokes the
  host process callback, the output staging area handed to it (out_buf when
  interleaved, scratch_out otherwise) holds only zeros, provided the
  staging buffers cover the period as the start path guarantees.  The
  alsa17h driver performs no such clear. -/
theorem umc_output_staging_zeroed (env : RtEnv) (p : Nat) (st : UmcState)
    (h1 : st.cfg.buffer_frames * st.cfg.out_channels ≤ st.out_buf.length)
    (h2 : st.cfg.buffer_frames * st.cfg.out_channels ≤ st.scratch_out.length) :
    ∀ pc, (umcStep env p st).2.1 = some pc →
      pc.outPrev = List.replicate (st.cfg.buffer_frames * st.cfg.out_channels) 0 := by
  intro pc hpc
  have hcap := umcCapture_proj env p st
  have hstage : umcStage (umcClear (umcCapture env p st))
      = List.replicate (st.cfg.buffer_frames * st.cfg.out_channels) 0 := by
    have ha : (umcCapture env p st).cfg.buffer_frames * (umcCapture env p st).cfg.out_channels
        ≤ (umcCapture env p st).out_buf.length := by
      rw [hcap.1, hcap.2.1]; exact h1
    have hb : (umcCapture env p st).cfg.buffer_frames * (umcCapture env p st).cfg.out_channels
        ≤ (umcCapture env p st).scratch_out.length := by
      rw [hcap.1, hcap.2.2.1]; exact h2
    have h := umcStage_clear (umcCapture env p st) ha hb
    rw [hcap.1] at h
    exact h
  simp only [umcStep] at hpc
  by_cases hp : env.hasProcess = true
  · rw [if_pos hp] at hpc
    by_cases hkeep : (env.process p (umcInPtr (umcClear (umcCapture env p st)))
        (umcStage (umcClear (umcCapture env p st)))).1 = true
    · rw [if_pos hkeep] at hpc
      injection hpc with h3
      subst h3
      exact hstage
    · rw [if_neg hkeep] at hpc
      injection hpc with h3
      subst h3
      exact hstage
  · rw [if_neg hp] at hpc
    simp at hpc

/-- C5 witness: one UMC period on a sized state whose process call receives
  exactly two zero samples of staging. -/
theorem umc_output_staging_zeroed_witness :
    (umcStep rtEnvKeep 0 umcRunSt).2.1
      = some { inp := none, outPrev := List.replicate 2 0, keep := true } ∧
    ({ inp := none, outPrev := List.replicate 2 0, keep := true } : ProcCall).outPrev
      = List.replicate (umcRunSt.cfg.buffer_frames * umcRunSt.cfg.out_channels) (0 : ℚ) :=
  ⟨by decide,
   umc_output_staging_zeroed rtEnvKeep 0 umcRunSt (by decide) (by decide) _ (by decide)⟩

end OASpec
